import Mathlib

/-!
Verification of the raw in-memory stream compression/decompression core
(`src/stream/raw.rs`): the buffer-cursor model (`InBuffer`/`OutBuffer`),
the `Operation` abstraction (`run` plus defaulted `flush`/`finish`/`reinit`
and the derived `run_on_buffers`), the `Status` record, and the three
variants `NoOp`, `Encoder`, `Decoder`.

Bytes are modelled as `Nat`; buffers as `List Nat`.  The external codec
engine (`zstd_safe`) and the status-code translator (`parse_code`) are part
of the repository but not among the given sources, so they are modelled
from the specification (each such definition carries a doc comment saying
so).  Rust's in-place mutation is modelled by explicit state passing: a
method returns the updated state, the updated cursors, and the
`io::Result` value.
-/

/-- Input cursor: immutable byte region `src` plus read position `pos`
(`zstd_safe::InBuffer`). The unread region is `src[pos..]`. -/
structure InBuffer where
  src : List Nat
  pos : Nat
deriving DecidableEq

/-- Output cursor: byte region `dst` plus write position `pos`
(`zstd_safe::OutBuffer`). The writable region is `dst[pos..]`. -/
structure OutBuffer where
  dst : List Nat
  pos : Nat
deriving DecidableEq

/-- `InBuffer::around(slice)`: a fresh input cursor at position 0. -/
def InBuffer.around (s : List Nat) : InBuffer := ⟨s, 0⟩

/-- `OutBuffer::around(slice)`: a fresh output cursor at position 0. -/
def OutBuffer.around (d : List Nat) : OutBuffer := ⟨d, 0⟩

/-- Result of one step of an operation (`Status` in `raw.rs`). -/
structure Status where
  remaining : Nat
  bytes_read : Nat
  bytes_written : Nat
deriving DecidableEq

/-- An error surfaced at the core's boundary, wrapping the engine's opaque
status code (the `io::Error` produced by `parse_code`). -/
structure CodecError where
  code : Nat
deriving DecidableEq

/-- `dst[pos..pos + bytes.len()].copy_from_slice(bytes)`: overwrite the
window of `dst` starting at `pos` with `bytes`, leaving everything before
`pos` and at or beyond `pos + bytes.length` unchanged. -/
def writeAt (dst : List Nat) (pos : Nat) (bytes : List Nat) : List Nat :=
  dst.take pos ++ bytes ++ dst.drop (pos + bytes.length)

/-- Modelled from the spec: zstd status codes are `usize` values; the
values at the very top of the range encode errors. -/
def zstd_error_base : Nat := 2 ^ 64 - 120

/-- Modelled from the spec: `ZSTD_isError` — whether a status code
reports a non-success outcome. -/
def isError (code : Nat) : Bool := zstd_error_base ≤ code

/-- Modelled from the spec: `parse_code` (in the crate root, not among the
given sources) — translates every non-success engine status code into an
error at the boundary and passes successful values through unchanged. -/
def parse_code (code : Nat) : Except CodecError Nat :=
  if isError code then Except.error ⟨code⟩ else Except.ok code

/-- A generic error status code, used by the modelled engine when it
rejects a configuration. -/
def zstd_error_generic : Nat := 2 ^ 64 - 1

/-- Modelled from the spec: the opaque compression engine context
(`zstd_safe::CStream`) — created from a level and dictionary, it buffers
consumed input until `flush`/`end` emit it. The actual transform is out of
scope, so the model codec is the identity transform. -/
structure CStream where
  level : Int
  dict : List Nat
  buffered : List Nat
deriving DecidableEq

/-- Modelled from the spec: the opaque decompression engine context
(`zstd_safe::DStream`) — retains the configured dictionary and the
per-frame progress that `reset` clears. -/
structure DStream where
  dict : List Nat
  emitted : Nat
deriving DecidableEq

/-- Modelled from the spec: `zstd_safe::create_cstream()` — a fresh,
uninitialized compression context. -/
def create_cstream : CStream := ⟨0, [], []⟩

/-- Modelled from the spec: `zstd_safe::create_dstream()` — a fresh
decompression context. -/
def create_dstream : DStream := ⟨[], 0⟩

/-- Modelled from the spec: the engine-defined valid range of compression
levels; levels outside it are rejected at initialization. -/
def validLevel (level : Int) : Bool := 0 ≤ level ∧ level ≤ 22

/-- Modelled from the spec: whether the engine accepts the dictionary
(empty means no dictionary; the modelled engine accepts any byte sequence
as a raw dictionary). -/
def validDict (dictionary : List Nat) : Bool :=
  match dictionary with
  | _ => true

/-- Modelled from the spec: `zstd_safe::init_cstream_using_dict` —
initializes a compression context with a dictionary and level, returning
the updated context and a status code (an error code exactly when the
engine rejects the level or dictionary). -/
def init_cstream_using_dict (ctx : CStream) (dictionary : List Nat)
    (level : Int) : CStream × Nat :=
  if validLevel level ∧ validDict dictionary then
    (⟨level, dictionary, []⟩, 0)
  else
    (ctx, zstd_error_generic)

/-- Modelled from the spec: `zstd_safe::init_dstream_using_dict` —
initializes a decompression context with a dictionary, returning the
updated context and a status code. -/
def init_dstream_using_dict (ctx : DStream) (dictionary : List Nat) :
    DStream × Nat :=
  if validDict dictionary then (⟨dictionary, 0⟩, 0)
  else (ctx, zstd_error_generic)

/-- Modelled from the spec: `zstd_safe::compress_stream(ctx, output,
input)` — consumes the unread input into the engine's internal buffer,
advancing the input cursor, and returns (context, output, input, status
code); the code is a next-input-size hint. -/
def compress_stream (ctx : CStream) (output : OutBuffer)
    (input : InBuffer) : CStream × OutBuffer × InBuffer × Nat :=
  (⟨ctx.level, ctx.dict, ctx.buffered ++ input.src.drop input.pos⟩,
   output, ⟨input.src, input.src.length⟩, 1)

/-- Modelled from the spec: `zstd_safe::flush_stream(ctx, output)` —
emits as many internally buffered bytes as fit in the writable output
region, advancing the output cursor, and returns the number of buffered
bytes still not emitted as the status code. -/
def flush_stream (ctx : CStream) (output : OutBuffer) :
    CStream × OutBuffer × Nat :=
  let w := output.dst.length - output.pos
  let len := min ctx.buffered.length w
  (⟨ctx.level, ctx.dict, ctx.buffered.drop len⟩,
   ⟨writeAt output.dst output.pos (ctx.buffered.take len),
    output.pos + len⟩,
   ctx.buffered.length - len)

/-- Modelled from the spec: `zstd_safe::end_stream(ctx, output)` — writes
the remaining frame content, returning the number of bytes still to
write; the modelled identity codec has no footer, so it coincides with
flushing the internal buffer. -/
def end_stream (ctx : CStream) (output : OutBuffer) :
    CStream × OutBuffer × Nat :=
  flush_stream ctx output

/-- Modelled from the spec: `zstd_safe::decompress_stream(ctx, output,
input)` — the identity model codec copies as many unread input bytes as
fit into the writable output region, advancing both cursors and the
context's per-frame progress, and returns status code 0. -/
def decompress_stream (ctx : DStream) (output : OutBuffer)
    (input : InBuffer) : DStream × OutBuffer × InBuffer × Nat :=
  let src := input.src.drop input.pos
  let w := output.dst.length - output.pos
  let len := min src.length w
  (⟨ctx.dict, ctx.emitted + len⟩,
   ⟨writeAt output.dst output.pos (src.take len), output.pos + len⟩,
   ⟨input.src, input.pos + len⟩, 0)

/-- Modelled from the spec: `zstd_safe::reset_dstream(ctx)` — resets the
context to begin a new frame while retaining the configured dictionary,
returning status code 0. -/
def reset_dstream (ctx : DStream) : DStream × Nat :=
  (⟨ctx.dict, 0⟩, 0)

/-- The `Operation` trait of `raw.rs`: `run` is mandatory; `reinit`,
`flush` and `finish` have the default bodies from the source (`Ok(())`,
`Ok(0)`, `Ok(0)`, touching nothing). A variant is a value of this
structure over its state type; fields left out of a variant's definition
keep these defaults, mirroring an un-overridden trait method. -/
structure Operation (σ : Type) where
  run : σ → InBuffer → OutBuffer →
    σ × InBuffer × OutBuffer × Except CodecError Nat
  reinit : σ → σ × Except CodecError Unit := fun s => (s, Except.ok ())
  flush : σ → OutBuffer → σ × OutBuffer × Except CodecError Nat :=
    fun s output => (s, output, Except.ok 0)
  finish : σ → OutBuffer → σ × OutBuffer × Except CodecError Nat :=
    fun s output => (s, output, Except.ok 0)

/-- `Operation::run_on_buffers` — the derived convenience from the trait:
builds fresh cursors around the two slices, calls `run` once, and
summarizes the step as a `Status`. Defined once over the `Operation`
structure, so no variant can override it. -/
def Operation.run_on_buffers (op : Operation σ) (s : σ)
    (input : List Nat) (output : List Nat) :
    σ × List Nat × Except CodecError Status :=
  match op.run s (InBuffer.around input) (OutBuffer.around output) with
  | (s₁, _, output₁, Except.error e) => (s₁, output₁.dst, Except.error e)
  | (s₁, input₁, output₁, Except.ok remaining) =>
    (s₁, output₁.dst,
     Except.ok ⟨remaining, input₁.pos, output₁.pos⟩)

/-- `NoOp::run` — copies `min(unread input, writable output)` bytes
verbatim from the unread input region to the start of the writable output
region, advances both cursors by that amount, and returns `Ok(0)`. -/
def NoOp.run (s : Unit) (input : InBuffer) (output : OutBuffer) :
    Unit × InBuffer × OutBuffer × Except CodecError Nat :=
  let src := input.src.drop input.pos
  let dstLen := output.dst.length - output.pos
  let len := min src.length dstLen
  (s, ⟨input.src, input.pos + len⟩,
   ⟨writeAt output.dst output.pos (src.take len), output.pos + len⟩,
   Except.ok 0)

/-- The `NoOp` variant: overrides nothing beyond `run`. -/
def NoOp.op : Operation Unit :=
  { run := NoOp.run }

/-- `Decoder::run` — `parse_code(zstd_safe::decompress_stream(ctx,
output, input))`. -/
def Decoder.run (ctx : DStream) (input : InBuffer) (output : OutBuffer) :
    DStream × InBuffer × OutBuffer × Except CodecError Nat :=
  match decompress_stream ctx output input with
  | (ctx₁, output₁, input₁, code) => (ctx₁, input₁, output₁, parse_code code)

/-- `Decoder::reinit` — `parse_code(zstd_safe::reset_dstream(ctx))?;
Ok(())`. -/
def Decoder.reinit (ctx : DStream) : DStream × Except CodecError Unit :=
  match reset_dstream ctx with
  | (ctx₁, code) =>
    match parse_code code with
    | Except.error e => (ctx₁, Except.error e)
    | Except.ok _ => (ctx₁, Except.ok ())

/-- The `Decoder` variant: overrides `run` and `reinit` only. -/
def Decoder.op : Operation DStream :=
  { run := Decoder.run, reinit := Decoder.reinit }

/-- `Decoder::with_dictionary` — creates a context, initializes it with
the dictionary through `parse_code`, and returns the decoder on success. -/
def Decoder.with_dictionary (dictionary : List Nat) :
    Except CodecError DStream :=
  match init_dstream_using_dict create_dstream dictionary with
  | (ctx, code) =>
    match parse_code code with
    | Except.error e => Except.error e
    | Except.ok _ => Except.ok ctx

/-- `Decoder::new` — `Self::with_dictionary(&[])`. -/
def Decoder.new : Except CodecError DStream :=
  Decoder.with_dictionary []

/-- `Encoder::run` — `parse_code(zstd_safe::compress_stream(ctx, output,
input))`. -/
def Encoder.run (ctx : CStream) (input : InBuffer) (output : OutBuffer) :
    CStream × InBuffer × OutBuffer × Except CodecError Nat :=
  match compress_stream ctx output input with
  | (ctx₁, output₁, input₁, code) => (ctx₁, input₁, output₁, parse_code code)

/-- `Encoder::flush` — `parse_code(zstd_safe::flush_stream(ctx,
output))`. -/
def Encoder.flush (ctx : CStream) (output : OutBuffer) :
    CStream × OutBuffer × Except CodecError Nat :=
  match flush_stream ctx output with
  | (ctx₁, output₁, code) => (ctx₁, output₁, parse_code code)

/-- `Encoder::finish` — `parse_code(zstd_safe::end_stream(ctx,
output))`. -/
def Encoder.finish (ctx : CStream) (output : OutBuffer) :
    CStream × OutBuffer × Except CodecError Nat :=
  match end_stream ctx output with
  | (ctx₁, output₁, code) => (ctx₁, output₁, parse_code code)

/-- The `Encoder` variant: overrides `run`, `flush` and `finish`;
`reinit` keeps the default. -/
def Encoder.op : Operation CStream :=
  { run := Encoder.run, flush := Encoder.flush, finish := Encoder.finish }

/-- `Encoder::with_dictionary` — creates a context, initializes it with
the dictionary and level through `parse_code`, and returns the encoder on
success. -/
def Encoder.with_dictionary (level : Int) (dictionary : List Nat) :
    Except CodecError CStream :=
  match init_cstream_using_dict create_cstream dictionary level with
  | (ctx, code) =>
    match parse_code code with
    | Except.error e => Except.error e
    | Except.ok _ => Except.ok ctx

/-- `Encoder::new(level)` — `Self::with_dictionary(level, &[])`. -/
def Encoder.new (level : Int) : Except CodecError CStream :=
  Encoder.with_dictionary level []

/-- Drive `run` until the input cursor reaches the end of its buffer (the
loop of `test_cycle` and of the round-trip property), with explicit fuel;
`none` on engine error or fuel exhaustion. -/
def driveRun (op : Operation σ) : Nat → σ → InBuffer → OutBuffer →
    Option (σ × InBuffer × OutBuffer)
  | 0, _, _, _ => none
  | fuel + 1, s, input, output =>
    match op.run s input output with
    | (_, _, _, Except.error _) => none
    | (s₁, input₁, output₁, Except.ok _) =>
      if input₁.pos = input₁.src.length then some (s₁, input₁, output₁)
      else driveRun op fuel s₁ input₁ output₁

/-- Drive `finish` until it returns 0 (the round-trip property's finish
loop), with explicit fuel; `none` on engine error or fuel exhaustion. -/
def driveFinish (op : Operation σ) : Nat → σ → OutBuffer →
    Option (σ × OutBuffer)
  | 0, _, _ => none
  | fuel + 1, s, output =>
    match op.finish s output with
    | (_, _, Except.error _) => none
    | (s₁, output₁, Except.ok pending) =>
      if pending = 0 then some (s₁, output₁)
      else driveFinish op fuel s₁ output₁

/-- Encode a byte sequence with an `Encoder` at the given level and
dictionary: drive `run` until the input is fully consumed, then `finish`
until it returns 0, into an output buffer of the input's size; the
concatenated encoder output is the filled region of the output cursor. -/
def encodeBytes (level : Int) (dictionary : List Nat) (s : List Nat) :
    Option (List Nat) :=
  match Encoder.with_dictionary level dictionary with
  | Except.error _ => none
  | Except.ok ctx =>
    match driveRun Encoder.op (s.length + 1) ctx (InBuffer.around s)
        (OutBuffer.around (List.replicate s.length 0)) with
    | none => none
    | some (ctx₁, _, output₁) =>
      match driveFinish Encoder.op (s.length + 1) ctx₁ output₁ with
      | none => none
      | some (_, output₂) => some (output₂.dst.take output₂.pos)

/-- Decode a byte sequence with a matching `Decoder`: drive `run` until
the input is fully consumed; the decoded bytes are the filled region of
the output cursor. -/
def decodeBytes (dictionary : List Nat) (e : List Nat) :
    Option (List Nat) :=
  match Decoder.with_dictionary dictionary with
  | Except.error _ => none
  | Except.ok ctx =>
    match driveRun Decoder.op (e.length + 1) ctx (InBuffer.around e)
        (OutBuffer.around (List.replicate e.length 0)) with
    | none => none
    | some (_, _, output₁) => some (output₁.dst.take output₁.pos)

theorem writeAt_length (dst : List Nat) (pos : Nat) (bytes : List Nat)
    (h : pos + bytes.length ≤ dst.length) :
    (writeAt dst pos bytes).length = dst.length := by
  simp only [writeAt, List.length_append, List.length_take, List.length_drop]
  omega

theorem writeAt_take (dst : List Nat) (pos : Nat) (bytes : List Nat)
    (h : pos ≤ dst.length) :
    (writeAt dst pos bytes).take pos = dst.take pos := by
  have hlen : (dst.take pos).length = pos := by
    simp only [List.length_take]; omega
  rw [writeAt, List.append_assoc, List.take_left' hlen]

theorem writeAt_drop (dst : List Nat) (pos : Nat) (bytes : List Nat)
    (h : pos ≤ dst.length) :
    (writeAt dst pos bytes).drop (pos + bytes.length) =
      dst.drop (pos + bytes.length) := by
  have hlen : (dst.take pos ++ bytes).length = pos + bytes.length := by
    simp only [List.length_append, List.length_take]; omega
  rw [writeAt, List.drop_left' hlen]

theorem writeAt_window (dst : List Nat) (pos : Nat) (bytes : List Nat)
    (h : pos ≤ dst.length) :
    ((writeAt dst pos bytes).drop pos).take bytes.length = bytes := by
  have hlen : (dst.take pos).length = pos := by
    simp only [List.length_take]; omega
  rw [writeAt, List.append_assoc, List.drop_left' hlen,
    List.take_left' rfl]

theorem noop_run_eq (input : InBuffer) (output : OutBuffer) :
    NoOp.run () input output =
      ((), ⟨input.src, input.pos +
        min (input.src.length - input.pos) (output.dst.length - output.pos)⟩,
       ⟨writeAt output.dst output.pos ((input.src.drop input.pos).take
          (min (input.src.length - input.pos) (output.dst.length - output.pos))),
        output.pos +
          min (input.src.length - input.pos) (output.dst.length - output.pos)⟩,
       Except.ok 0) := by
  simp [NoOp.run, List.length_drop]

theorem take_of_take_min (src : List Nat) (ip w : Nat) :
    ((src.drop ip).take (min (src.length - ip) w)).length =
      min (src.length - ip) w := by
  simp only [List.length_take, List.length_drop]
  omega

/-- C2: for cursors with `pos ≤ length`, `NoOp::run` copies exactly
`min(unread input, writable output)` bytes verbatim and in order from the
unread input region to the start of the writable output region, advances
both cursor positions by exactly that amount, and returns `Ok(0)`
regardless of whether further input remains unread. -/
theorem noop_run_copies_min (input : InBuffer) (output : OutBuffer)
    (hi : input.pos ≤ input.src.length)
    (ho : output.pos ≤ output.dst.length) :
    (NoOp.run () input output).2.2.2 = Except.ok 0 ∧
    (NoOp.run () input output).2.1.pos = input.pos +
      min (input.src.length - input.pos) (output.dst.length - output.pos) ∧
    (NoOp.run () input output).2.2.1.pos = output.pos +
      min (input.src.length - input.pos) (output.dst.length - output.pos) ∧
    ((NoOp.run () input output).2.2.1.dst.drop output.pos).take
        (min (input.src.length - input.pos) (output.dst.length - output.pos)) =
      (input.src.drop input.pos).take
        (min (input.src.length - input.pos) (output.dst.length - output.pos)) := by
  rw [noop_run_eq]
  refine ⟨rfl, rfl, rfl, ?_⟩
  have hb := take_of_take_min input.src input.pos
    (output.dst.length - output.pos)
  calc ((writeAt output.dst output.pos ((input.src.drop input.pos).take
          (min (input.src.length - input.pos)
            (output.dst.length - output.pos)))).drop output.pos).take
        (min (input.src.length - input.pos) (output.dst.length - output.pos))
      = ((writeAt output.dst output.pos ((input.src.drop input.pos).take
          (min (input.src.length - input.pos)
            (output.dst.length - output.pos)))).drop output.pos).take
        ((input.src.drop input.pos).take
          (min (input.src.length - input.pos)
            (output.dst.length - output.pos))).length := by rw [hb]
    _ = (input.src.drop input.pos).take
          (min (input.src.length - input.pos)
            (output.dst.length - output.pos)) :=
      writeAt_window _ _ _ ho

/-- Witness for C2 at a concrete input: two of three unread bytes fit the
two-byte output window, both cursors advance by two, and the copied bytes
are the unread prefix. -/
theorem noop_run_copies_min_witness :
    (NoOp.run () ⟨[4, 5, 6], 1⟩ ⟨[9, 9], 0⟩).2.2.2 = Except.ok 0 ∧
    (NoOp.run () ⟨[4, 5, 6], 1⟩ ⟨[9, 9], 0⟩).2.1.pos = 3 ∧
    (NoOp.run () ⟨[4, 5, 6], 1⟩ ⟨[9, 9], 0⟩).2.2.1.pos = 2 ∧
    (NoOp.run () ⟨[4, 5, 6], 1⟩ ⟨[9, 9], 0⟩).2.2.1.dst = [5, 6] := by
  have h := noop_run_copies_min ⟨[4, 5, 6], 1⟩ ⟨[9, 9], 0⟩
    (by decide) (by decide)
  exact ⟨h.1, h.2.1, h.2.2.1, rfl⟩

theorem isError_zero : isError 0 = false := by decide

theorem isError_one : isError 1 = false := by decide

theorem isError_generic : isError zstd_error_generic = true := by decide

theorem parse_code_zero : parse_code 0 = Except.ok 0 := rfl

theorem parse_code_one : parse_code 1 = Except.ok 1 := rfl

theorem parse_code_spec (code : Nat) :
    ((∃ e, parse_code code = Except.error e) ↔ isError code = true) ∧
    (isError code = false → parse_code code = Except.ok code) := by
  cases h : isError code
  · simp [parse_code, h]
  · simp [parse_code, h]

/-- C9: `NoOp::run` is total and infallible — on cursors within bounds it
always returns `Ok(0)`, and when the unread input region or the writable
output region is empty it leaves both cursor positions unchanged. -/
theorem noop_run_infallible (input : InBuffer) (output : OutBuffer)
    (hi : input.pos ≤ input.src.length)
    (ho : output.pos ≤ output.dst.length) :
    (NoOp.run () input output).2.2.2 = Except.ok 0 ∧
    (input.pos = input.src.length →
      (NoOp.run () input output).2.1.pos = input.pos ∧
      (NoOp.run () input output).2.2.1.pos = output.pos) ∧
    (output.pos = output.dst.length →
      (NoOp.run () input output).2.1.pos = input.pos ∧
      (NoOp.run () input output).2.2.1.pos = output.pos) := by
  rw [noop_run_eq]
  refine ⟨rfl, fun h => ⟨?_, ?_⟩, fun h => ⟨?_, ?_⟩⟩ <;> simp <;> omega

/-- Witness for C9 at a concrete input with the unread region empty: the
call returns `Ok(0)` and moves neither cursor. -/
theorem noop_run_infallible_witness :
    (NoOp.run () ⟨[1, 2], 2⟩ ⟨[0], 0⟩).2.2.2 = Except.ok 0 ∧
    (NoOp.run () ⟨[1, 2], 2⟩ ⟨[0], 0⟩).2.1.pos = 2 ∧
    (NoOp.run () ⟨[1, 2], 2⟩ ⟨[0], 0⟩).2.2.1.pos = 0 := by
  have h := noop_run_infallible ⟨[1, 2], 2⟩ ⟨[0], 0⟩ (by decide) (by decide)
  exact ⟨h.1, (h.2.1 rfl).1, (h.2.1 rfl).2⟩

/-- C10: frame condition of `NoOp::run` — the output bytes before the
initial output position and those at or beyond initial position plus
`min(unread input, writable output)` are unchanged, and the input buffer
is never modified. -/
theorem noop_run_frame (input : InBuffer) (output : OutBuffer)
    (ho : output.pos ≤ output.dst.length) :
    (NoOp.run () input output).2.1.src = input.src ∧
    (NoOp.run () input output).2.2.1.dst.take output.pos =
      output.dst.take output.pos ∧
    (NoOp.run () input output).2.2.1.dst.drop (output.pos +
        min (input.src.length - input.pos) (output.dst.length - output.pos)) =
      output.dst.drop (output.pos +
        min (input.src.length - input.pos)
          (output.dst.length - output.pos)) := by
  rw [noop_run_eq]
  refine ⟨rfl, writeAt_take _ _ _ ho, ?_⟩
  have hb := take_of_take_min input.src input.pos
    (output.dst.length - output.pos)
  have hd := writeAt_drop output.dst output.pos
    ((input.src.drop input.pos).take
      (min (input.src.length - input.pos)
        (output.dst.length - output.pos))) ho
  rw [hb] at hd
  exact hd

/-- Witness for C10 at a concrete input: the byte before the output
position and the one past the written window keep their old values, and
the input buffer is untouched. -/
theorem noop_run_frame_witness :
    (NoOp.run () ⟨[7], 0⟩ ⟨[3, 4, 5], 1⟩).2.1.src = [7] ∧
    (NoOp.run () ⟨[7], 0⟩ ⟨[3, 4, 5], 1⟩).2.2.1.dst.take 1 = [3] ∧
    (NoOp.run () ⟨[7], 0⟩ ⟨[3, 4, 5], 1⟩).2.2.1.dst.drop 2 = [5] := by
  have h := noop_run_frame ⟨[7], 0⟩ ⟨[3, 4, 5], 1⟩ (by decide)
  exact ⟨h.1, h.2.1, h.2.2⟩

/-- C5: when the writable output region is strictly smaller than the
unread input region, `NoOp::run` fills the output cursor to exactly its
capacity, leaves the input partially unread, advances the input position
by exactly the written amount, writes exactly the next unread input bytes
into the writable region (no out-of-bounds access, no dropped bytes), and
preserves the output buffer's length. -/
theorem noop_run_partial (input : InBuffer) (output : OutBuffer)
    (hi : input.pos ≤ input.src.length)
    (ho : output.pos ≤ output.dst.length)
    (hsmall : output.dst.length - output.pos <
      input.src.length - input.pos) :
    (NoOp.run () input output).2.2.1.pos =
      (NoOp.run () input output).2.2.1.dst.length ∧
    (NoOp.run () input output).2.2.1.pos = output.dst.length ∧
    (NoOp.run () input output).2.1.pos < input.src.length ∧
    (NoOp.run () input output).2.1.pos =
      input.pos + (output.dst.length - output.pos) ∧
    ((NoOp.run () input output).2.2.1.dst.drop output.pos).take
        (output.dst.length - output.pos) =
      (input.src.drop input.pos).take (output.dst.length - output.pos) ∧
    (NoOp.run () input output).2.2.1.dst.length = output.dst.length := by
  have hmin : min (input.src.length - input.pos)
      (output.dst.length - output.pos) = output.dst.length - output.pos := by
    omega
  have hb := take_of_take_min input.src input.pos
    (output.dst.length - output.pos)
  rw [hmin] at hb
  rw [noop_run_eq, hmin]
  dsimp only
  have hlen : (writeAt output.dst output.pos
      ((input.src.drop input.pos).take
        (output.dst.length - output.pos))).length = output.dst.length := by
    apply writeAt_length
    rw [hb]
    omega
  have hwin := writeAt_window output.dst output.pos
    ((input.src.drop input.pos).take (output.dst.length - output.pos)) ho
  rw [hb] at hwin
  exact ⟨by rw [hlen]; omega, by omega, by omega, rfl, hwin, hlen⟩

/-- Witness for C5 at a concrete input: a one-byte output window against
three unread bytes is filled to capacity, the input stays partially
unread, and the written byte is the next unread input byte. -/
theorem noop_run_partial_witness :
    (NoOp.run () ⟨[1, 2, 3], 0⟩ ⟨[0], 0⟩).2.2.1.pos = 1 ∧
    (NoOp.run () ⟨[1, 2, 3], 0⟩ ⟨[0], 0⟩).2.1.pos = 1 ∧
    (NoOp.run () ⟨[1, 2, 3], 0⟩ ⟨[0], 0⟩).2.2.1.dst = [1] := by
  have h := noop_run_partial ⟨[1, 2, 3], 0⟩ ⟨[0], 0⟩
    (by decide) (by decide) (by decide)
  exact ⟨h.2.1, h.2.2.2.1, rfl⟩

/-- C8: variants that keep a default get exactly the default behavior —
`flush`/`finish` return `Ok(0)` without touching the output cursor and
`reinit` returns `Ok(())` — and each variant overrides exactly the
meaningful subset: `NoOp` overrides nothing beyond `run` (its
`flush`/`finish`/`reinit` are the defaults), `Decoder` keeps the default
`flush`/`finish` but its `reinit` resets the engine context, and
`Encoder` keeps the default `reinit` but its `flush`/`finish` emit the
engine's buffered bytes. -/
theorem operation_default_overrides :
    (∀ s output, NoOp.op.flush s output = (s, output, Except.ok 0)) ∧
    (∀ s output, NoOp.op.finish s output = (s, output, Except.ok 0)) ∧
    (∀ s, NoOp.op.reinit s = (s, Except.ok ())) ∧
    (∀ d output, Decoder.op.flush d output = (d, output, Except.ok 0)) ∧
    (∀ d output, Decoder.op.finish d output = (d, output, Except.ok 0)) ∧
    (∀ c, Encoder.op.reinit c = (c, Except.ok ())) ∧
    Decoder.op.reinit ⟨[6], 1⟩ = (⟨[6], 0⟩, Except.ok ()) ∧
    Encoder.op.flush ⟨1, [], [7]⟩ ⟨[0], 0⟩ =
      (⟨1, [], []⟩, ⟨[7], 1⟩, Except.ok 0) ∧
    Encoder.op.finish ⟨1, [], [7]⟩ ⟨[0], 0⟩ =
      (⟨1, [], []⟩, ⟨[7], 1⟩, Except.ok 0) :=
  ⟨fun _ _ => rfl, fun _ _ => rfl, fun _ => rfl, fun _ _ => rfl,
   fun _ _ => rfl, fun _ => rfl, rfl, rfl, rfl⟩

/-- C3: `run_on_buffers` builds fresh cursors at position 0 around the
two slices, performs one `run` step, and — whatever the `Operation`
variant — returns the hint of that single call as `remaining` and the
cursor positions it reached as `bytes_read`/`bytes_written` (the cursors
start at 0, so the positions are exactly the bytes consumed and
produced); an error from `run` is passed through. -/
theorem run_on_buffers_derived {σ : Type} (op : Operation σ) (s : σ)
    (input output : List Nat) :
    (∀ s₁ input₁ output₁ hint,
      op.run s (InBuffer.around input) (OutBuffer.around output) =
        (s₁, input₁, output₁, Except.ok hint) →
      op.run_on_buffers s input output =
        (s₁, output₁.dst, Except.ok ⟨hint, input₁.pos, output₁.pos⟩)) ∧
    (∀ s₁ input₁ output₁ e,
      op.run s (InBuffer.around input) (OutBuffer.around output) =
        (s₁, input₁, output₁, Except.error e) →
      op.run_on_buffers s input output =
        (s₁, output₁.dst, Except.error e)) := by
  constructor
  · intro s₁ input₁ output₁ hint h
    simp [Operation.run_on_buffers, h]
  · intro s₁ input₁ output₁ e h
    simp [Operation.run_on_buffers, h]

/-- Witness for C3 on the `NoOp` variant at a concrete input: one `run`
step copies two bytes, and `run_on_buffers` summarizes it as
`Status { remaining = 0, bytes_read = 2, bytes_written = 2 }`. -/
theorem run_on_buffers_derived_witness :
    NoOp.op.run_on_buffers () [5, 6, 7] [0, 0] =
      ((), [5, 6], Except.ok ⟨0, 2, 2⟩) :=
  (run_on_buffers_derived NoOp.op () [5, 6, 7] [0, 0]).1 ()
    ⟨[5, 6, 7], 2⟩ ⟨[5, 6], 2⟩ 0 rfl

/-- C7: `Encoder::new`/`Encoder::with_dictionary` (and
`Decoder::new`/`Decoder::with_dictionary`) fail with a configuration
error exactly when the engine rejects the level or the dictionary during
initialization — in which case no instance is produced — and otherwise
return an instance owning one freshly initialized engine context. -/
theorem construction_rejects_config (level : Int) (dictionary : List Nat) :
    ((∃ e, Encoder.with_dictionary level dictionary = Except.error e) ↔
      ¬(validLevel level = true ∧ validDict dictionary = true)) ∧
    (validLevel level = true ∧ validDict dictionary = true →
      Encoder.with_dictionary level dictionary =
        Except.ok ⟨level, dictionary, []⟩) ∧
    Encoder.new level = Encoder.with_dictionary level [] ∧
    ((∃ e, Decoder.with_dictionary dictionary = Except.error e) ↔
      ¬(validDict dictionary = true)) ∧
    (validDict dictionary = true →
      Decoder.with_dictionary dictionary = Except.ok ⟨dictionary, 0⟩) ∧
    Decoder.new = Decoder.with_dictionary [] := by
  have hd : validDict dictionary = true := rfl
  by_cases hl : validLevel level = true
  · refine ⟨?_, ?_, rfl, ?_, ?_, rfl⟩
    · simp [Encoder.with_dictionary, init_cstream_using_dict, hl, hd,
        parse_code_zero]
    · intro h
      simp [Encoder.with_dictionary, init_cstream_using_dict, hl, hd,
        parse_code_zero]
    · simp [Decoder.with_dictionary, init_dstream_using_dict, hd,
        parse_code_zero]
    · intro h
      simp [Decoder.with_dictionary, init_dstream_using_dict, hd,
        parse_code_zero]
  · refine ⟨?_, ?_, rfl, ?_, ?_, rfl⟩
    · simp [Encoder.with_dictionary, init_cstream_using_dict, hl, hd,
        parse_code, isError_generic]
    · intro h
      exact absurd h.1 hl
    · simp [Decoder.with_dictionary, init_dstream_using_dict, hd,
        parse_code_zero]
    · intro h
      simp [Decoder.with_dictionary, init_dstream_using_dict, hd,
        parse_code_zero]

/-- Witness for C7 at concrete inputs: level 3 with dictionary `[4]` is
accepted on both sides and yields freshly initialized contexts, while
level 23 is rejected by the engine and construction fails. -/
theorem construction_rejects_config_witness :
    Encoder.with_dictionary 3 [4] = Except.ok ⟨3, [4], []⟩ ∧
    Decoder.with_dictionary [4] = Except.ok ⟨[4], 0⟩ ∧
    (∃ e, Encoder.with_dictionary 23 [] = Except.error e) := by
  refine ⟨(construction_rejects_config 3 [4]).2.1 ⟨by decide, rfl⟩,
    (construction_rejects_config 3 [4]).2.2.2.2.1 rfl,
    (construction_rejects_config 23 []).1.mpr ?_⟩
  intro h
  exact absurd h.1 (by decide)

theorem encoder_run_code (ctx : CStream) (input : InBuffer)
    (output : OutBuffer) :
    (Encoder.run ctx input output).2.2.2 =
      parse_code (compress_stream ctx output input).2.2.2 := rfl

theorem Encoder.flush_code (ctx : CStream) (output : OutBuffer) :
    (Encoder.flush ctx output).2.2 =
      parse_code (flush_stream ctx output).2.2 := rfl

theorem Encoder.finish_code (ctx : CStream) (output : OutBuffer) :
    (Encoder.finish ctx output).2.2 =
      parse_code (end_stream ctx output).2.2 := rfl

theorem decoder_run_code (ctx : DStream) (input : InBuffer)
    (output : OutBuffer) :
    (Decoder.run ctx input output).2.2.2 =
      parse_code (decompress_stream ctx output input).2.2.2 := rfl

/-- C6: every `Encoder`/`Decoder` method that invokes the engine fails
exactly when the engine call reports a non-success status code and
otherwise returns `Ok` with the engine's value (`Ok(())` for `reinit`);
each method makes its single engine call on the given state with no
internal retry, and buffer exhaustion alone — a full output buffer —
never produces an error. -/
theorem boundary_error_translation :
    (∀ ctx input output,
      ((∃ e, (Encoder.run ctx input output).2.2.2 = Except.error e) ↔
        isError (compress_stream ctx output input).2.2.2 = true) ∧
      (isError (compress_stream ctx output input).2.2.2 = false →
        (Encoder.run ctx input output).2.2.2 =
          Except.ok (compress_stream ctx output input).2.2.2)) ∧
    (∀ ctx output,
      ((∃ e, (Encoder.flush ctx output).2.2 = Except.error e) ↔
        isError (flush_stream ctx output).2.2 = true) ∧
      (isError (flush_stream ctx output).2.2 = false →
        (Encoder.flush ctx output).2.2 =
          Except.ok (flush_stream ctx output).2.2)) ∧
    (∀ ctx output,
      ((∃ e, (Encoder.finish ctx output).2.2 = Except.error e) ↔
        isError (end_stream ctx output).2.2 = true) ∧
      (isError (end_stream ctx output).2.2 = false →
        (Encoder.finish ctx output).2.2 =
          Except.ok (end_stream ctx output).2.2)) ∧
    (∀ ctx input output,
      ((∃ e, (Decoder.run ctx input output).2.2.2 = Except.error e) ↔
        isError (decompress_stream ctx output input).2.2.2 = true) ∧
      (isError (decompress_stream ctx output input).2.2.2 = false →
        (Decoder.run ctx input output).2.2.2 =
          Except.ok (decompress_stream ctx output input).2.2.2)) ∧
    (∀ ctx,
      ((∃ e, (Decoder.reinit ctx).2 = Except.error e) ↔
        isError (reset_dstream ctx).2 = true) ∧
      (isError (reset_dstream ctx).2 = false →
        (Decoder.reinit ctx).2 = Except.ok ())) ∧
    (∀ ctx dst, ctx.buffered.length < zstd_error_base →
      (Encoder.finish ctx ⟨dst, dst.length⟩).2.2 =
        Except.ok ctx.buffered.length) ∧
    (∀ ctx input dst,
      (Decoder.run ctx input ⟨dst, dst.length⟩).2.2.2 = Except.ok 0) := by
  refine ⟨?_, ?_, ?_, ?_, ?_, ?_, ?_⟩
  · intro ctx input output
    rw [encoder_run_code]
    exact parse_code_spec _
  · intro ctx output
    rw [Encoder.flush_code]
    exact parse_code_spec _
  · intro ctx output
    rw [Encoder.finish_code]
    exact parse_code_spec _
  · intro ctx input output
    rw [decoder_run_code]
    exact parse_code_spec _
  · intro ctx
    refine ⟨?_, fun _ => rfl⟩
    constructor
    · intro h
      obtain ⟨e, he⟩ := h
      exact absurd he (by simp [Decoder.reinit, reset_dstream, parse_code_zero])
    · intro h
      exact absurd h (by simp [reset_dstream, isError_zero])
  · intro ctx dst h
    rw [Encoder.finish_code]
    have hcode : (end_stream ctx ⟨dst, dst.length⟩).2.2 =
        ctx.buffered.length := by
      simp [end_stream, flush_stream]
    rw [hcode]
    have hne : isError ctx.buffered.length = false := by
      simp only [isError, decide_eq_false_iff_not, not_le]
      exact h
    simp [parse_code, hne]
  · intro ctx input dst
    rw [decoder_run_code]
    have hcode : (decompress_stream ctx ⟨dst, dst.length⟩ input).2.2.2 = 0 :=
      rfl
    rw [hcode, parse_code_zero]

/-- Witness for C6 at concrete inputs: a successful engine status is
passed through as `Ok`, and `finish` on a full output buffer reports the
pending byte count as `Ok`, not as an error. -/
theorem boundary_error_translation_witness :
    (Encoder.run ⟨1, [], []⟩ (InBuffer.around [2])
        (OutBuffer.around [])).2.2.2 = Except.ok 1 ∧
    (Encoder.finish ⟨1, [], [9]⟩ ⟨[0], 1⟩).2.2 = Except.ok 1 := by
  refine ⟨?_, ?_⟩
  · exact (boundary_error_translation.1 ⟨1, [], []⟩ (InBuffer.around [2])
      (OutBuffer.around [])).2 (by decide)
  · exact boundary_error_translation.2.2.2.2.2.1 ⟨1, [], [9]⟩ [0] (by decide)

theorem decoder_run_eq (ctx : DStream) (input : InBuffer)
    (output : OutBuffer) :
    Decoder.run ctx input output =
      (⟨ctx.dict, ctx.emitted +
        min (input.src.length - input.pos) (output.dst.length - output.pos)⟩,
       ⟨input.src, input.pos +
        min (input.src.length - input.pos) (output.dst.length - output.pos)⟩,
       ⟨writeAt output.dst output.pos ((input.src.drop input.pos).take
          (min (input.src.length - input.pos) (output.dst.length - output.pos))),
        output.pos +
          min (input.src.length - input.pos) (output.dst.length - output.pos)⟩,
       Except.ok 0) := by
  simp [Decoder.run, decompress_stream, List.length_drop, parse_code_zero]

theorem length_take_min (l : List Nat) (w : Nat) :
    (l.take (min l.length w)).length = min l.length w := by
  simp only [List.length_take]
  omega

theorem Encoder.flush_eq (ctx : CStream) (output : OutBuffer) :
    Encoder.flush ctx output =
      (⟨ctx.level, ctx.dict, ctx.buffered.drop
          (min ctx.buffered.length (output.dst.length - output.pos))⟩,
       ⟨writeAt output.dst output.pos (ctx.buffered.take
          (min ctx.buffered.length (output.dst.length - output.pos))),
        output.pos + min ctx.buffered.length (output.dst.length - output.pos)⟩,
       parse_code (ctx.buffered.length -
          min ctx.buffered.length (output.dst.length - output.pos))) := by
  simp [Encoder.flush, flush_stream]

theorem Encoder.finish_eq_flush (ctx : CStream) (output : OutBuffer) :
    Encoder.finish ctx output = Encoder.flush ctx output := rfl

/-- C4: for every variant and every `run`/`flush`/`finish` call on
cursors whose positions are within bounds, both cursor positions after
the call are at least their values before the call and neither exceeds
its buffer's length (un-overridden `flush`/`finish` leave the output
cursor unchanged, so the same bounds hold for them). -/
theorem cursors_monotone (input : InBuffer) (output : OutBuffer)
    (ctx : CStream) (dctx : DStream)
    (hi : input.pos ≤ input.src.length)
    (ho : output.pos ≤ output.dst.length) :
    (input.pos ≤ (NoOp.run () input output).2.1.pos ∧
     (NoOp.run () input output).2.1.pos ≤
       (NoOp.run () input output).2.1.src.length ∧
     output.pos ≤ (NoOp.run () input output).2.2.1.pos ∧
     (NoOp.run () input output).2.2.1.pos ≤
       (NoOp.run () input output).2.2.1.dst.length) ∧
    (input.pos ≤ (Encoder.run ctx input output).2.1.pos ∧
     (Encoder.run ctx input output).2.1.pos ≤
       (Encoder.run ctx input output).2.1.src.length ∧
     output.pos ≤ (Encoder.run ctx input output).2.2.1.pos ∧
     (Encoder.run ctx input output).2.2.1.pos ≤
       (Encoder.run ctx input output).2.2.1.dst.length) ∧
    (input.pos ≤ (Decoder.run dctx input output).2.1.pos ∧
     (Decoder.run dctx input output).2.1.pos ≤
       (Decoder.run dctx input output).2.1.src.length ∧
     output.pos ≤ (Decoder.run dctx input output).2.2.1.pos ∧
     (Decoder.run dctx input output).2.2.1.pos ≤
       (Decoder.run dctx input output).2.2.1.dst.length) ∧
    (output.pos ≤ (Encoder.flush ctx output).2.1.pos ∧
     (Encoder.flush ctx output).2.1.pos ≤
       (Encoder.flush ctx output).2.1.dst.length) ∧
    (output.pos ≤ (Encoder.finish ctx output).2.1.pos ∧
     (Encoder.finish ctx output).2.1.pos ≤
       (Encoder.finish ctx output).2.1.dst.length) ∧
    (output.pos ≤ (NoOp.op.flush () output).2.1.pos ∧
     (NoOp.op.flush () output).2.1.pos ≤
       (NoOp.op.flush () output).2.1.dst.length) ∧
    (output.pos ≤ (NoOp.op.finish () output).2.1.pos ∧
     (NoOp.op.finish () output).2.1.pos ≤
       (NoOp.op.finish () output).2.1.dst.length) ∧
    (output.pos ≤ (Decoder.op.flush dctx output).2.1.pos ∧
     (Decoder.op.flush dctx output).2.1.pos ≤
       (Decoder.op.flush dctx output).2.1.dst.length) ∧
    (output.pos ≤ (Decoder.op.finish dctx output).2.1.pos ∧
     (Decoder.op.finish dctx output).2.1.pos ≤
       (Decoder.op.finish dctx output).2.1.dst.length) := by
  have hb := take_of_take_min input.src input.pos
    (output.dst.length - output.pos)
  have hlen : (writeAt output.dst output.pos
      ((input.src.drop input.pos).take
        (min (input.src.length - input.pos)
          (output.dst.length - output.pos)))).length = output.dst.length := by
    apply writeAt_length
    rw [hb]
    omega
  have hbf := length_take_min ctx.buffered (output.dst.length - output.pos)
  have hlenf : (writeAt output.dst output.pos
      (ctx.buffered.take
        (min ctx.buffered.length
          (output.dst.length - output.pos)))).length = output.dst.length := by
    apply writeAt_length
    rw [hbf]
    omega
  refine ⟨?_, ?_, ?_, ?_, ?_, ?_, ?_, ?_, ?_⟩
  · rw [noop_run_eq]
    dsimp only
    exact ⟨by omega, by omega, by omega, by rw [hlen]; omega⟩
  · simp only [Encoder.run, compress_stream]
    exact ⟨hi, le_refl _, le_refl _, ho⟩
  · rw [decoder_run_eq]
    dsimp only
    exact ⟨by omega, by omega, by omega, by rw [hlen]; omega⟩
  · rw [Encoder.flush_eq]
    dsimp only
    exact ⟨by omega, by rw [hlenf]; omega⟩
  · rw [Encoder.finish_eq_flush, Encoder.flush_eq]
    dsimp only
    exact ⟨by omega, by rw [hlenf]; omega⟩
  · exact ⟨le_refl _, ho⟩
  · exact ⟨le_refl _, ho⟩
  · exact ⟨le_refl _, ho⟩
  · exact ⟨le_refl _, ho⟩

/-- Witness for C4 at concrete inputs: after a `NoOp::run`, an
`Encoder::run` and an `Encoder::flush` on the same two-byte cursors, the
reached positions are non-decreasing and within bounds. -/
theorem cursors_monotone_witness :
    (NoOp.run () ⟨[1, 2], 1⟩ ⟨[0, 0], 1⟩).2.1.pos = 2 ∧
    (NoOp.run () ⟨[1, 2], 1⟩ ⟨[0, 0], 1⟩).2.2.1.pos = 2 ∧
    1 ≤ (Encoder.run ⟨1, [], []⟩ ⟨[1, 2], 1⟩ ⟨[0, 0], 1⟩).2.1.pos ∧
    1 ≤ (Encoder.flush ⟨1, [], [5]⟩ ⟨[0, 0], 1⟩).2.1.pos := by
  have h := cursors_monotone ⟨[1, 2], 1⟩ ⟨[0, 0], 1⟩ ⟨1, [], [5]⟩ ⟨[], 0⟩
    (by decide) (by decide)
  exact ⟨rfl, rfl, (cursors_monotone ⟨[1, 2], 1⟩ ⟨[0, 0], 1⟩ ⟨1, [], []⟩
    ⟨[], 0⟩ (by decide) (by decide)).2.1.1, h.2.2.2.1.1⟩

theorem encodeBytes_eq (level : Int) (dictionary s : List Nat)
    (hl : validLevel level = true) :
    encodeBytes level dictionary s = some s := by
  have hd : validDict dictionary = true := rfl
  have henc : Encoder.with_dictionary level dictionary =
      Except.ok ⟨level, dictionary, []⟩ := by
    simp [Encoder.with_dictionary, init_cstream_using_dict, hl, hd,
      parse_code_zero]
  have hrun : driveRun Encoder.op (s.length + 1) ⟨level, dictionary, []⟩
      (InBuffer.around s) (OutBuffer.around (List.replicate s.length 0)) =
      some (⟨level, dictionary, s⟩, ⟨s, s.length⟩,
        ⟨List.replicate s.length 0, 0⟩) := by
    simp [driveRun, Encoder.op, Encoder.run, compress_stream,
      parse_code_one, InBuffer.around, OutBuffer.around]
  have hfin : driveFinish Encoder.op (s.length + 1) ⟨level, dictionary, s⟩
      ⟨List.replicate s.length 0, 0⟩ =
      some (⟨level, dictionary, []⟩, ⟨s, s.length⟩) := by
    simp [driveFinish, Encoder.op, Encoder.finish, end_stream,
      flush_stream, writeAt, parse_code_zero]
  rw [encodeBytes, henc]
  dsimp only
  rw [hrun]
  dsimp only
  rw [hfin]
  dsimp only
  simp [List.take_length]

theorem decodeBytes_eq (dictionary s : List Nat) :
    decodeBytes dictionary s = some s := by
  have hd : validDict dictionary = true := rfl
  have hdec : Decoder.with_dictionary dictionary =
      Except.ok ⟨dictionary, 0⟩ := by
    simp [Decoder.with_dictionary, init_dstream_using_dict, hd,
      parse_code_zero]
  have hrun : driveRun Decoder.op (s.length + 1) ⟨dictionary, 0⟩
      (InBuffer.around s) (OutBuffer.around (List.replicate s.length 0)) =
      some (⟨dictionary, s.length⟩, ⟨s, s.length⟩, ⟨s, s.length⟩) := by
    simp [driveRun, Decoder.op, Decoder.run, decompress_stream, writeAt,
      parse_code_zero, InBuffer.around, OutBuffer.around]
  rw [decodeBytes, hdec]
  dsimp only
  rw [hrun]
  dsimp only
  simp [List.take_length]

/-- C1: for every byte sequence and every configuration the engine
accepts, encoding with an `Encoder` (driving `run` until the input is
fully consumed, then `finish` until it returns 0) and then decoding the
concatenated encoder output with a matching `Decoder` (driving `run`
until the input is fully consumed) yields exactly the original byte
sequence. -/
theorem round_trip (level : Int) (dictionary s : List Nat)
    (hl : validLevel level = true) (hd : validDict dictionary = true) :
    Option.bind (encodeBytes level dictionary s) (decodeBytes dictionary) =
      some s := by
  rw [encodeBytes_eq level dictionary s hl]
  simp [decodeBytes_eq]

/-- Witness for C1 at a concrete configuration and payload: level 3 with
dictionary `[2, 3]` is valid, and the encode–decode cycle reproduces
`[10, 20, 30]`. -/
theorem round_trip_witness :
    validLevel 3 = true ∧
    Option.bind (encodeBytes 3 [2, 3] [10, 20, 30]) (decodeBytes [2, 3]) =
      some [10, 20, 30] :=
  ⟨by decide, round_trip 3 [2, 3] [10, 20, 30] (by decide) (by decide)⟩
